import Mathlib

/-!
Verification of the period/state engine of the Offline-Reminder-App.

Modelling conventions (shallow embedding of the Python source):

* Instants are integers counting seconds.  Local instants are measured from
  an epoch chosen to fall on a Monday 00:00 local, so that the calendar day
  of a local instant `t` is `t / 86400` (floor division, as Python's
  `datetime.date` behaves) and the weekday (Monday = 0 .. Sunday = 6, as in
  `datetime.weekday()`) is that day number modulo 7.
* The conversion `to_local` (`periods.py`) from UTC to the observer's local
  timezone is modelled as addition of a fixed offset `off` in seconds,
  threaded through every function that converts; `utc + off` is the local
  instant.
* ISO strings: the source stores dates and instants as ISO-formatted
  strings and compares them by string equality.  ISO formatting of dates
  and instants is injective, so the embedding keeps the underlying integers
  (day numbers, instants) and compares those.
-/

namespace ReminderApp

/-- Seconds per calendar day. -/
def secondsPerDay : Int := 86400

/-- Calendar day number of a local instant (floor of `t / 86400`),
mirroring `datetime.date()` on the local instant. -/
def dayOf (t : Int) : Int := t / 86400

/-- Weekday of a local instant, Monday = 0 .. Sunday = 6, mirroring
`datetime.weekday()` (the epoch day 0 is a Monday). -/
def weekdayOf (t : Int) : Int := dayOf t % 7

/-- The Monday of the week of a local instant, as a day number:
`periods.py` computes `d - timedelta(days=weekday)`. -/
def mondayOf (t : Int) : Int := dayOf t - weekdayOf t

/-- `periods.WorkWeekWindow`: Monday 00:00 local (inclusive) to
Saturday 00:00 local (exclusive), as local instants. -/
structure WorkWeekWindow where
  start_local : Int
  end_local : Int
deriving DecidableEq, Repr

/-- `periods.workweek_window_for`: the window `[Monday 00:00, Saturday 00:00)`
of the week of a local instant. -/
def workweek_window_for (t : Int) : WorkWeekWindow :=
  { start_local := mondayOf t * 86400
    end_local := mondayOf t * 86400 + 5 * 86400 }

/-- `periods.period_key_workweek`: the source renders the string
`"workweek:" ++ isoformat(monday)`; since ISO date formatting is injective
and the tag is constant, the key is modelled by the Monday day number. -/
def period_key_workweek (t : Int) : Int :=
  (workweek_window_for t).start_local / 86400

/-- `periods.is_in_workweek`: whether a local instant lies inside its own
workweek window. -/
def is_in_workweek (t : Int) : Bool :=
  decide ((workweek_window_for t).start_local ≤ t) &&
    decide (t < (workweek_window_for t).end_local)

/-- `periods.next_reminder_datetime_local`: today (the instant's local
date) at the given time of day (seconds after local midnight). -/
def next_reminder_datetime_local (t : Int) (reminder_time : Int) : Int :=
  dayOf t * 86400 + reminder_time

/-- `periods.to_local` under the fixed-offset timezone model. -/
def to_local (off : Int) (t_utc : Int) : Int := t_utc + off

/-- `periods.split_interval_by_workweek`: whole minutes of the
intersection of `[start, end)` (converted to local) with the workweek
window containing the start's local instant. -/
def split_interval_by_workweek (off start_utc end_utc : Int) : Int :=
  let start_local := to_local off start_utc
  let end_local := to_local off end_utc
  let w := workweek_window_for start_local
  let a := max start_local w.start_local
  let b := min end_local w.end_local
  if b ≤ a then 0 else (b - a) / 60

/-! ### Arithmetic facts about the period module -/

theorem dayOf_mul_le (t : Int) : dayOf t * 86400 ≤ t := by
  have h := Int.ediv_add_emod t 86400
  have hnn : 0 ≤ t % 86400 := Int.emod_nonneg t (by norm_num)
  unfold dayOf
  omega

theorem lt_dayOf_add_one (t : Int) : t < (dayOf t + 1) * 86400 := by
  have h := Int.ediv_add_emod t 86400
  have hlt : t % 86400 < 86400 := Int.emod_lt_of_pos t (by norm_num)
  unfold dayOf
  omega

theorem lt_mul_day_iff (t k : Int) : t < k * 86400 ↔ dayOf t < k := by
  unfold dayOf
  rw [Int.ediv_lt_iff_lt_mul (by norm_num : (0:Int) < 86400)]

theorem weekdayOf_nonneg (t : Int) : 0 ≤ weekdayOf t :=
  Int.emod_nonneg _ (by norm_num)

theorem weekdayOf_lt_seven (t : Int) : weekdayOf t < 7 :=
  Int.emod_lt_of_pos _ (by norm_num)

theorem dayOf_eq_monday_add_weekday (t : Int) : dayOf t = mondayOf t + weekdayOf t := by
  unfold mondayOf; omega

theorem mondayOf_emod_seven (t : Int) : mondayOf t % 7 = 0 := by
  unfold mondayOf weekdayOf
  omega

theorem dayOf_mul (k : Int) : dayOf (k * 86400) = k := by
  unfold dayOf
  exact Int.mul_ediv_cancel k (by norm_num)

theorem window_start_le (t : Int) : (workweek_window_for t).start_local ≤ t := by
  unfold workweek_window_for
  have h1 : mondayOf t * 86400 ≤ dayOf t * 86400 := by
    have : mondayOf t ≤ dayOf t := by
      have := weekdayOf_nonneg t
      unfold mondayOf; omega
    exact mul_le_mul_of_nonneg_right this (by norm_num)
  exact le_trans h1 (dayOf_mul_le t)

theorem lt_window_end_iff (t : Int) :
    t < (workweek_window_for t).end_local ↔ weekdayOf t < 5 := by
  unfold workweek_window_for
  have hrw : mondayOf t * 86400 + 5 * 86400 = (mondayOf t + 5) * 86400 := by ring
  simp only [hrw]
  rw [lt_mul_day_iff, dayOf_eq_monday_add_weekday t]
  omega

theorem is_in_workweek_iff (t : Int) :
    is_in_workweek t = true ↔ weekdayOf t < 5 := by
  unfold is_in_workweek
  simp only [Bool.and_eq_true, decide_eq_true_eq]
  constructor
  · rintro ⟨_, h2⟩
    exact (lt_window_end_iff t).mp h2
  · intro h
    exact ⟨window_start_le t, (lt_window_end_iff t).mpr h⟩

theorem weekdayOf_window_end (t : Int) :
    weekdayOf ((workweek_window_for t).end_local) = 5 := by
  unfold workweek_window_for
  have hrw : mondayOf t * 86400 + 5 * 86400 = (mondayOf t + 5) * 86400 := by ring
  simp only [hrw]
  unfold weekdayOf
  rw [dayOf_mul]
  have hm := mondayOf_emod_seven t
  omega

theorem period_key_eq_monday (t : Int) : period_key_workweek t = mondayOf t := by
  unfold period_key_workweek workweek_window_for
  simp only
  exact Int.mul_ediv_cancel _ (by norm_num)

theorem window_eq_iff_monday_eq (t1 t2 : Int) :
    workweek_window_for t1 = workweek_window_for t2 ↔ mondayOf t1 = mondayOf t2 := by
  unfold workweek_window_for
  constructor
  · intro h
    have hs : mondayOf t1 * 86400 = mondayOf t2 * 86400 :=
      congrArg WorkWeekWindow.start_local h
    exact mul_right_cancel₀ (by norm_num) hs
  · intro h
    rw [h]

/-- C6: `workweek_window_for` returns `[Monday 00:00 local, Saturday 00:00
local)` of the instant's week (Monday found by subtracting the weekday
number in days, the end being the start plus 5 days), and `is_in_workweek`
holds exactly on `[start, end)` of the instant's own window and is false at
the end boundary. -/
theorem workweek_window_for_spec (t : Int) :
    (workweek_window_for t).start_local = (dayOf t - weekdayOf t) * 86400 ∧
    (workweek_window_for t).end_local = (workweek_window_for t).start_local + 5 * 86400 ∧
    (is_in_workweek t = true ↔
      (workweek_window_for t).start_local ≤ t ∧ t < (workweek_window_for t).end_local) ∧
    is_in_workweek ((workweek_window_for t).end_local) = false := by
  refine ⟨rfl, rfl, ?_, ?_⟩
  · unfold is_in_workweek
    simp [Bool.and_eq_true, decide_eq_true_eq]
  · rw [Bool.eq_false_iff]
    intro hcontra
    have h5 := (is_in_workweek_iff _).mp hcontra
    rw [weekdayOf_window_end t] at h5
    exact absurd h5 (by norm_num)

/-- Witness for C6 at a concrete instant (one hour into the epoch Monday). -/
theorem workweek_window_for_spec_witness :
    (workweek_window_for 3600).start_local = 0 ∧
    is_in_workweek ((workweek_window_for 3600).end_local) = false := by
  have h := workweek_window_for_spec 3600
  exact ⟨by decide, h.2.2.2⟩

/-- C5: two local instants have the same period key iff they have the same
workweek window; the key is determined solely by the window's Monday. -/
theorem period_key_workweek_spec (t1 t2 : Int) :
    period_key_workweek t1 = period_key_workweek t2 ↔
      workweek_window_for t1 = workweek_window_for t2 := by
  rw [period_key_eq_monday, period_key_eq_monday, window_eq_iff_monday_eq]

/-- Witness for C5: a Tuesday instant and a Friday instant of the same week
share a key; a next-week instant gets a different key. -/
theorem period_key_workweek_spec_witness :
    period_key_workweek 90000 = period_key_workweek 400000 ∧
    ¬ period_key_workweek 90000 = period_key_workweek 700000 := by
  constructor
  · exact (period_key_workweek_spec 90000 400000).mpr (by decide)
  · intro h
    have hw := (period_key_workweek_spec 90000 700000).mp h
    exact absurd hw (by decide)

/-! ### Data model (`models.py`) -/

/-- `models.TaskType`. -/
inductive TaskType where
  | weekly_time_quota
  | complete_once
deriving DecidableEq, Repr

/-- `models.WeekSchedule`: the set of active weekdays, Monday = 0 .. Sunday = 6. -/
structure WeekSchedule where
  active_weekdays : List Int
deriving DecidableEq, Repr

/-- `models.Task`. -/
structure Task where
  id : Int
  title : String
  task_type : TaskType
  enabled : Bool
  schedule : WeekSchedule
  weekly_goal_minutes : Option Int := none
  period : String := "workweek"
deriving DecidableEq, Repr

/-- `models.SnoozeState`: the snooze instant is kept as a UTC instant
(the source stores an ISO string, parsed back with `fromisoformat`), the
skip date as a local day number (the source stores `YYYY-MM-DD`, compared
by string equality; ISO date formatting is injective). -/
structure SnoozeState where
  snoozed_until_utc : Option Int
  skipped_date_local : Option Int
deriving DecidableEq, Repr

/-- `models.AppSettings`; the reminder start time of day is seconds after
local midnight. -/
structure AppSettings where
  start_at_login : Bool
  repeat_interval_minutes : Int
  reminders_start_time : Int
deriving DecidableEq, Repr

/-- A row of the `sessions` table: start instant (UTC), optional end
instant (UTC, absent while a timed session runs), manual-minutes count
(positive marks a manual log entry). -/
structure Session where
  task_id : Int
  start_utc : Int
  end_utc : Option Int
  manual_minutes : Int
deriving DecidableEq, Repr

/-- The repository state read and mutated by the engine: the `snoozes`
table (keyed by task id; a missing row reads as the empty state, exactly
as `get_snooze_state` returns), the `completions` table as
(task id, period key) pairs, and the `sessions` table as a list of rows. -/
structure Repo where
  snoozes : Int → SnoozeState
  completions : List (Int × Int)
  sessions : List Session

/-! ### Repository operations (`repository.py`) -/

/-- `Repository.get_snooze_state`. -/
def Repo.get_snooze_state (repo : Repo) (task_id : Int) : SnoozeState :=
  repo.snoozes task_id

/-- `Repository.set_snoozed_until_utc`: upsert that replaces only the
snoozed-until column of the task's row. -/
def Repo.set_snoozed_until_utc (repo : Repo) (task_id : Int) (v : Option Int) : Repo :=
  { repo with
    snoozes := fun i =>
      if i = task_id then { repo.snoozes i with snoozed_until_utc := v }
      else repo.snoozes i }

/-- The SQL condition `task_id=? AND end_utc IS NULL AND manual_minutes=0`
selecting the open timed sessions of a task. -/
def open_timed (task_id : Int) (s : Session) : Bool :=
  decide (s.task_id = task_id ∧ s.end_utc = none ∧ s.manual_minutes = 0)

/-- `Repository.is_session_running`. -/
def Repo.is_session_running (repo : Repo) (task_id : Int) : Bool :=
  repo.sessions.any (open_timed task_id)

/-- `Repository.start_session`: a no-op when an open timed session exists,
otherwise inserts a new open timed session starting now. -/
def Repo.start_session (repo : Repo) (task_id nowu : Int) : Repo :=
  if repo.sessions.any (open_timed task_id) then repo
  else { repo with
         sessions := repo.sessions ++
           [{ task_id := task_id, start_utc := nowu, end_utc := none, manual_minutes := 0 }] }

/-- Close the first open timed session of the task, as
`Repository.stop_session` updates the single row returned by its query. -/
def stop_first (task_id nowu : Int) : List Session → List Session
  | [] => []
  | s :: rest =>
      if open_timed task_id s then { s with end_utc := some nowu } :: rest
      else s :: stop_first task_id nowu rest

/-- `Repository.stop_session`. -/
def Repo.stop_session (repo : Repo) (task_id nowu : Int) : Repo :=
  { repo with sessions := stop_first task_id nowu repo.sessions }

/-- `Repository.add_manual_minutes`: inserts a closed session whose start
and end are both now, with the given manual-minutes count. -/
def Repo.add_manual_minutes (repo : Repo) (task_id nowu minutes : Int) : Repo :=
  { repo with
    sessions := repo.sessions ++
      [{ task_id := task_id, start_utc := nowu, end_utc := some nowu, manual_minutes := minutes }] }

/-- `Repository.delete_sessions_for_current_workweek`: deletes the task's
sessions whose start (in local time) has the current period key. -/
def Repo.delete_sessions_for_current_workweek (repo : Repo) (off task_id nowu : Int) : Repo :=
  { repo with
    sessions := repo.sessions.filter (fun s =>
      ! decide (s.task_id = task_id ∧
        period_key_workweek (to_local off s.start_utc) = period_key_workweek (to_local off nowu))) }

/-- `Repository.is_completed_for_current_period`. -/
def Repo.is_completed_for_current_period (repo : Repo) (off task_id nowu : Int) : Bool :=
  repo.completions.any (fun c =>
    decide (c.1 = task_id ∧ c.2 = period_key_workweek (to_local off nowu)))

/-- The body of the loop of `Repository.weekly_minutes_for_current_workweek`:
manual sessions add their manual minutes when their start's period key is
current; timed sessions whose start's period key is current add the overlap
minutes of `[start, end-or-now)` with the start's workweek window. -/
def session_step (off nowu pk : Int) (total : Int) (s : Session) : Int :=
  if 0 < s.manual_minutes then
    if period_key_workweek (to_local off s.start_utc) = pk then total + s.manual_minutes
    else total
  else
    if period_key_workweek (to_local off s.start_utc) ≠ pk then total
    else total + split_interval_by_workweek off s.start_utc (s.end_utc.getD nowu)

/-- `Repository.weekly_minutes_for_current_workweek`. -/
def Repo.weekly_minutes_for_current_workweek (repo : Repo) (off task_id nowu : Int) : Int :=
  let pk := period_key_workweek (to_local off nowu)
  (repo.sessions.filter (fun s => decide (s.task_id = task_id))).foldl
    (session_step off nowu pk) 0

/-! ### State engine (`engine.py`) -/

/-- `engine.TaskState`: the derived snapshot returned by the engine. -/
structure TaskState where
  task_id : Int
  title : String
  task_type : TaskType
  enabled : Bool
  active_today : Bool
  in_workweek : Bool
  skipped_today : Bool
  snoozed : Bool
  snoozed_until_utc : Option Int
  running : Bool
  completed_override : Bool
  done_by_minutes : Bool
  done : Bool
  goal_minutes : Option Int
  done_minutes : Option Int
  can_remind_now : Bool
  reminder_message : String
  status_text : String
deriving DecidableEq, Repr

/-- The snooze block of `compute_task_state` (engine.py lines 58-69):
returns the `snoozed` flag, the surviving snoozed-until value, and the
repository after the self-healing clear of an expired snooze. -/
def snooze_eval (nowu : Int) (repo : Repo) (task_id : Int) : Bool × Option Int × Repo :=
  match (repo.get_snooze_state task_id).snoozed_until_utc with
  | none => (false, none, repo)
  | some u =>
      if nowu < u then (true, some u, repo)
      else (false, none, repo.set_snoozed_until_utc task_id none)

/-- `engine.compute_task_state`: the single source of truth for the
derived status and the reminder-eligibility decision; its only mutation is
the clear of an expired snooze, so it returns the state paired with the
repository after that possible clear.  (The final `running_blocks`
conjunct of the source, `task_type == WEEKLY_TIME_QUOTA and running`, is
resolved inside each branch of the type match: `running` in the quota
branch, false in the complete-once branch.) -/
def compute_task_state (off : Int) (repo : Repo) (task : Task) (nowu nowl : Int)
    (settings : AppSettings) : TaskState × Repo :=
  let enabled := task.enabled
  let in_workweek_flag := is_in_workweek nowl
  let active_today := decide (weekdayOf nowl ∈ task.schedule.active_weekdays)
  let today := dayOf nowl
  let skipped_today := decide ((repo.get_snooze_state task.id).skipped_date_local = some today)
  let sres := snooze_eval nowu repo task.id
  let snoozed := sres.1
  let snoozed_until := sres.2.1
  let repo1 := sres.2.2
  let rem_dt := next_reminder_datetime_local nowl settings.reminders_start_time
  let after_start_time := decide (rem_dt ≤ nowl)
  let completed_override := repo1.is_completed_for_current_period off task.id nowu
  match task.task_type with
  | TaskType.weekly_time_quota =>
      let running := repo1.is_session_running task.id
      let goal_minutes := task.weekly_goal_minutes.getD 0
      let done_minutes := repo1.weekly_minutes_for_current_workweek off task.id nowu
      let done_by_minutes := decide (0 < goal_minutes ∧ goal_minutes ≤ done_minutes)
      let done := completed_override || done_by_minutes
      let status_text :=
        if done then "DONE (this workweek)"
        else toString done_minutes ++ "/" ++ toString goal_minutes ++ " min" ++
          (if running then " (running)" else "")
      let msg :=
        if done then "Done for this work week."
        else "Progress: " ++ toString done_minutes ++ "/" ++ toString goal_minutes ++
          " min this work week. Open tray panel to log/snooze."
      let can_remind_now := enabled && in_workweek_flag && active_today && after_start_time
        && !skipped_today && !snoozed && !done && !running
      ({ task_id := task.id
         title := task.title
         task_type := task.task_type
         enabled := enabled
         active_today := active_today
         in_workweek := in_workweek_flag
         skipped_today := skipped_today
         snoozed := snoozed
         snoozed_until_utc := snoozed_until
         running := running
         completed_override := completed_override
         done_by_minutes := done_by_minutes
         done := done
         goal_minutes := some goal_minutes
         done_minutes := some done_minutes
         can_remind_now := can_remind_now
         reminder_message := msg
         status_text := status_text }, repo1)
  | TaskType.complete_once =>
      let done := completed_override
      let status_text := if done then "DONE" else "DUE"
      let msg := "Due. Open tray panel to snooze/skip/complete."
      let can_remind_now := enabled && in_workweek_flag && active_today && after_start_time
        && !skipped_today && !snoozed && !done
      ({ task_id := task.id
         title := task.title
         task_type := task.task_type
         enabled := enabled
         active_today := active_today
         in_workweek := in_workweek_flag
         skipped_today := skipped_today
         snoozed := snoozed
         snoozed_until_utc := snoozed_until
         running := false
         completed_override := completed_override
         done_by_minutes := false
         done := done
         goal_minutes := none
         done_minutes := none
         can_remind_now := can_remind_now
         reminder_message := msg
         status_text := status_text }, repo1)

/-! ### Scheduler (`scheduler.py`) -/

/-- `Scheduler._should_throttle`: true when the task fired less than
`repeat_minutes` minutes ago. -/
def should_throttle (last : Option Int) (nowu repeat_minutes : Int) : Bool :=
  match last with
  | none => false
  | some l => decide (nowu - l < repeat_minutes * 60)

/-- One task's share of `Scheduler.tick`: compute the state, skip when not
eligible, skip when throttled, otherwise fire and record the instant.
Returns (fired?, new last-fired instant, repository after the tick).  The
tick's `nowl` is `to_local off nowu`, and the repeat interval is the
settings value clamped to a minimum of 1. -/
def tick_task (off : Int) (repo : Repo) (task : Task) (settings : AppSettings)
    (nowu : Int) (last : Option Int) : Bool × Option Int × Repo :=
  let nowl := to_local off nowu
  let repeat_minutes := max 1 settings.repeat_interval_minutes
  let res := compute_task_state off repo task nowu nowl settings
  let st := res.1
  let repo1 := res.2
  if !st.can_remind_now then (false, last, repo1)
  else if should_throttle last nowu repeat_minutes then (false, last, repo1)
  else (true, some nowu, repo1)

/-- A sequence of scheduler ticks for one task: each tick is given its
instant and the repository contents at that instant (the contents may
change arbitrarily between ticks, which subsumes eligibility toggling and
the engine's snooze self-heal).  Returns the final last-fired value and
the list of instants at which the task fired. -/
def run_ticks (off : Int) (task : Task) (settings : AppSettings) :
    List (Int × Repo) → Option Int → Option Int × List Int
  | [], last => (last, [])
  | (t, repo) :: rest, last =>
      let r := tick_task off repo task settings t last
      let tail := run_ticks off task settings rest r.2.1
      (tail.1, (if r.1 then [t] else []) ++ tail.2)

/-! ### Helper lemmas about the engine -/

theorem snooze_eval_of_none {repo : Repo} {task_id : Int} (nowu : Int)
    (h : (repo.get_snooze_state task_id).snoozed_until_utc = none) :
    snooze_eval nowu repo task_id = (false, none, repo) := by
  unfold snooze_eval
  rw [h]

theorem snooze_eval_of_active {repo : Repo} {task_id u : Int} {nowu : Int}
    (h : (repo.get_snooze_state task_id).snoozed_until_utc = some u)
    (hlt : nowu < u) :
    snooze_eval nowu repo task_id = (true, some u, repo) := by
  unfold snooze_eval
  rw [h]
  simp [hlt]

theorem snooze_eval_of_expired {repo : Repo} {task_id u : Int} {nowu : Int}
    (h : (repo.get_snooze_state task_id).snoozed_until_utc = some u)
    (hge : ¬ nowu < u) :
    snooze_eval nowu repo task_id = (false, none, repo.set_snoozed_until_utc task_id none) := by
  unfold snooze_eval
  rw [h]
  simp [hge]

theorem snooze_eval_sessions (nowu : Int) (repo : Repo) (task_id : Int) :
    (snooze_eval nowu repo task_id).2.2.sessions = repo.sessions := by
  unfold snooze_eval
  cases h : (repo.get_snooze_state task_id).snoozed_until_utc with
  | none => rfl
  | some u =>
      by_cases hlt : nowu < u <;> simp [hlt, Repo.set_snoozed_until_utc]

theorem snooze_eval_completions (nowu : Int) (repo : Repo) (task_id : Int) :
    (snooze_eval nowu repo task_id).2.2.completions = repo.completions := by
  unfold snooze_eval
  cases h : (repo.get_snooze_state task_id).snoozed_until_utc with
  | none => rfl
  | some u =>
      by_cases hlt : nowu < u <;> simp [hlt, Repo.set_snoozed_until_utc]

theorem is_session_running_congr {r1 r2 : Repo} (task_id : Int)
    (h : r1.sessions = r2.sessions) :
    r1.is_session_running task_id = r2.is_session_running task_id := by
  unfold Repo.is_session_running
  rw [h]

theorem is_completed_congr {r1 r2 : Repo} (off task_id nowu : Int)
    (h : r1.completions = r2.completions) :
    r1.is_completed_for_current_period off task_id nowu =
      r2.is_completed_for_current_period off task_id nowu := by
  unfold Repo.is_completed_for_current_period
  rw [h]

theorem weekly_minutes_congr {r1 r2 : Repo} (off task_id nowu : Int)
    (h : r1.sessions = r2.sessions) :
    r1.weekly_minutes_for_current_workweek off task_id nowu =
      r2.weekly_minutes_for_current_workweek off task_id nowu := by
  unfold Repo.weekly_minutes_for_current_workweek
  rw [h]

theorem compute_task_state_snd (off : Int) (repo : Repo) (task : Task)
    (nowu nowl : Int) (settings : AppSettings) :
    (compute_task_state off repo task nowu nowl settings).2 =
      (snooze_eval nowu repo task.id).2.2 := by
  cases htt : task.task_type <;> simp [compute_task_state, htt]

theorem compute_task_state_snoozed (off : Int) (repo : Repo) (task : Task)
    (nowu nowl : Int) (settings : AppSettings) :
    (compute_task_state off repo task nowu nowl settings).1.snoozed =
      (snooze_eval nowu repo task.id).1 := by
  cases htt : task.task_type <;> simp [compute_task_state, htt]

theorem compute_task_state_skipped (off : Int) (repo : Repo) (task : Task)
    (nowu nowl : Int) (settings : AppSettings) :
    (compute_task_state off repo task nowu nowl settings).1.skipped_today =
      decide ((repo.get_snooze_state task.id).skipped_date_local = some (dayOf nowl)) := by
  cases htt : task.task_type <;> simp [compute_task_state, htt]

theorem compute_task_state_done_quota (off : Int) (repo : Repo) (task : Task)
    (nowu nowl : Int) (settings : AppSettings)
    (htt : task.task_type = TaskType.weekly_time_quota) :
    (compute_task_state off repo task nowu nowl settings).1.done =
      (repo.is_completed_for_current_period off task.id nowu ||
        decide (0 < task.weekly_goal_minutes.getD 0 ∧
          task.weekly_goal_minutes.getD 0 ≤
            repo.weekly_minutes_for_current_workweek off task.id nowu)) := by
  have hc := is_completed_congr off task.id nowu
    (snooze_eval_completions nowu repo task.id)
  have hm := weekly_minutes_congr off task.id nowu
    (snooze_eval_sessions nowu repo task.id)
  simp [compute_task_state, htt, hc, hm]

theorem compute_task_state_done_once (off : Int) (repo : Repo) (task : Task)
    (nowu nowl : Int) (settings : AppSettings)
    (htt : task.task_type = TaskType.complete_once) :
    (compute_task_state off repo task nowu nowl settings).1.done =
      repo.is_completed_for_current_period off task.id nowu := by
  have hc := is_completed_congr off task.id nowu
    (snooze_eval_completions nowu repo task.id)
  simp [compute_task_state, htt, hc]

theorem compute_task_state_can_remind_eq (off : Int) (repo : Repo) (task : Task)
    (nowu nowl : Int) (settings : AppSettings) :
    (compute_task_state off repo task nowu nowl settings).1.can_remind_now =
      (task.enabled && is_in_workweek nowl &&
        decide (weekdayOf nowl ∈ task.schedule.active_weekdays) &&
        decide (next_reminder_datetime_local nowl settings.reminders_start_time ≤ nowl) &&
        !(compute_task_state off repo task nowu nowl settings).1.skipped_today &&
        !(compute_task_state off repo task nowu nowl settings).1.snoozed &&
        !(compute_task_state off repo task nowu nowl settings).1.done &&
        !(decide (task.task_type = TaskType.weekly_time_quota) &&
          (compute_task_state off repo task nowu nowl settings).1.running)) := by
  cases htt : task.task_type <;>
    simp [compute_task_state, htt, Bool.and_assoc]

/-! ### Concrete fixtures used by the witnesses -/

/-- The empty snooze row, as `get_snooze_state` returns for a missing row. -/
def emptySnooze : SnoozeState := { snoozed_until_utc := none, skipped_date_local := none }

/-- A repository with no rows at all. -/
def emptyRepo : Repo := { snoozes := fun _ => emptySnooze, completions := [], sessions := [] }

/-- Default settings: repeat every 5 minutes, reminders from 09:00 local. -/
def defaultSettings : AppSettings :=
  { start_at_login := false, repeat_interval_minutes := 5, reminders_start_time := 32400 }

/-- A disabled complete-once task active on all workdays. -/
def disabledTask : Task :=
  { id := 1, title := "disabled", task_type := TaskType.complete_once, enabled := false
    schedule := { active_weekdays := [0, 1, 2, 3, 4] } }

/-- An enabled complete-once task active on all workdays. -/
def onceTask : Task :=
  { id := 2, title := "once", task_type := TaskType.complete_once, enabled := true
    schedule := { active_weekdays := [0, 1, 2, 3, 4] } }

/-- An enabled quota task with a 30-minute weekly goal. -/
def quotaTask : Task :=
  { id := 3, title := "quota", task_type := TaskType.weekly_time_quota, enabled := true
    schedule := { active_weekdays := [0, 1, 2, 3, 4] }, weekly_goal_minutes := some 30 }

/-- A repository holding one manual 45-minute session for the quota task,
logged on the epoch Monday. -/
def sessionRepo : Repo :=
  { snoozes := fun _ => emptySnooze, completions := []
    sessions := [{ task_id := 3, start_utc := 3600, end_utc := some 3600, manual_minutes := 45 }] }

/-- A repository where task 2 has a snooze that expires at instant 100. -/
def snoozedRepo : Repo :=
  { snoozes := fun i =>
      if i = 2 then { snoozed_until_utc := some 100, skipped_date_local := none }
      else emptySnooze
    completions := [], sessions := [] }

/-! ### Claim theorems for the engine -/

/-- C1: `can_remind_now` holds exactly when the task is enabled, the
instant is in the workweek window, the local weekday is active, the local
time is at or after the daily start time, and the task is neither skipped
today, snoozed, done, nor blocked by a running timed session (running
blocks only quota tasks); in particular a disabled task never reminds. -/
theorem compute_task_state_can_remind_spec (off : Int) (repo : Repo) (task : Task)
    (nowu nowl : Int) (settings : AppSettings) :
    ((compute_task_state off repo task nowu nowl settings).1.can_remind_now = true ↔
      (task.enabled = true ∧
       is_in_workweek nowl = true ∧
       weekdayOf nowl ∈ task.schedule.active_weekdays ∧
       next_reminder_datetime_local nowl settings.reminders_start_time ≤ nowl ∧
       (compute_task_state off repo task nowu nowl settings).1.skipped_today = false ∧
       (compute_task_state off repo task nowu nowl settings).1.snoozed = false ∧
       (compute_task_state off repo task nowu nowl settings).1.done = false ∧
       ¬(task.task_type = TaskType.weekly_time_quota ∧
         (compute_task_state off repo task nowu nowl settings).1.running = true))) ∧
    (task.enabled = false →
      (compute_task_state off repo task nowu nowl settings).1.can_remind_now = false) := by
  constructor
  · rw [compute_task_state_can_remind_eq]
    simp only [Bool.and_eq_true, Bool.not_eq_true', Bool.and_eq_false_iff,
      decide_eq_true_eq, decide_eq_false_iff_not]
    constructor
    · rintro ⟨⟨⟨⟨⟨⟨⟨h1, h2⟩, h3⟩, h4⟩, h5⟩, h6⟩, h7⟩, h8⟩
      refine ⟨h1, h2, h3, h4, h5, h6, h7, ?_⟩
      rintro ⟨hq, hr⟩
      rcases h8 with h8 | h8
      · exact h8 hq
      · rw [hr] at h8; exact absurd h8 (by simp)
    · rintro ⟨h1, h2, h3, h4, h5, h6, h7, h8⟩
      refine ⟨⟨⟨⟨⟨⟨⟨h1, h2⟩, h3⟩, h4⟩, h5⟩, h6⟩, h7⟩, ?_⟩
      by_cases hq : task.task_type = TaskType.weekly_time_quota
      · right
        cases hr : (compute_task_state off repo task nowu nowl settings).1.running
        · rfl
        · exact absurd ⟨hq, hr⟩ h8
      · left; exact hq
  · intro h
    rw [compute_task_state_can_remind_eq, h]
    simp

/-- Witness for C1: the disabled task is never remindable at a concrete
eligible instant. -/
theorem compute_task_state_can_remind_spec_witness :
    (compute_task_state 0 emptyRepo disabledTask 36000 36000 defaultSettings).1.can_remind_now
      = false :=
  (compute_task_state_can_remind_spec 0 emptyRepo disabledTask 36000 36000 defaultSettings).2 rfl

/-- C2: `done` holds for quota tasks iff a completion record exists for
the current period or the accumulated minutes reach a positive goal; for
complete-once tasks iff a completion record exists; and a quota task whose
accumulated minutes reach a positive goal is done and not remindable even
without a completion record. -/
theorem compute_task_state_done_spec (off : Int) (repo : Repo) (task : Task)
    (nowu nowl : Int) (settings : AppSettings) :
    (task.task_type = TaskType.weekly_time_quota →
      ((compute_task_state off repo task nowu nowl settings).1.done = true ↔
        (repo.is_completed_for_current_period off task.id nowu = true ∨
          (0 < task.weekly_goal_minutes.getD 0 ∧
            task.weekly_goal_minutes.getD 0 ≤
              repo.weekly_minutes_for_current_workweek off task.id nowu)))) ∧
    (task.task_type = TaskType.complete_once →
      ((compute_task_state off repo task nowu nowl settings).1.done = true ↔
        repo.is_completed_for_current_period off task.id nowu = true)) ∧
    (task.task_type = TaskType.weekly_time_quota →
      0 < task.weekly_goal_minutes.getD 0 →
      task.weekly_goal_minutes.getD 0 ≤
        repo.weekly_minutes_for_current_workweek off task.id nowu →
      ((compute_task_state off repo task nowu nowl settings).1.done = true ∧
       (compute_task_state off repo task nowu nowl settings).1.can_remind_now = false)) := by
  refine ⟨?_, ?_, ?_⟩
  · intro htt
    rw [compute_task_state_done_quota off repo task nowu nowl settings htt]
    simp [Bool.or_eq_true, decide_eq_true_eq]
  · intro htt
    rw [compute_task_state_done_once off repo task nowu nowl settings htt]
  · intro htt hpos hle
    have hdone : (compute_task_state off repo task nowu nowl settings).1.done = true := by
      rw [compute_task_state_done_quota off repo task nowu nowl settings htt]
      simp [hpos, hle]
    refine ⟨hdone, ?_⟩
    rw [compute_task_state_can_remind_eq, hdone]
    simp

/-- Witness for C2: the 30-minute-goal quota task with a 45-minute manual
session this week and no completion record is done and not remindable. -/
theorem compute_task_state_done_spec_witness :
    (compute_task_state 0 sessionRepo quotaTask 36000 36000 defaultSettings).1.done = true ∧
    (compute_task_state 0 sessionRepo quotaTask 36000 36000 defaultSettings).1.can_remind_now
      = false :=
  (compute_task_state_done_spec 0 sessionRepo quotaTask 36000 36000 defaultSettings).2.2
    rfl (by decide) (by decide)

/-- C3: an expired snooze (stored instant at or before now) is reported as
not snoozed, the engine's only mutation clears it in the repository (the
subsequent read returns no snooze), and re-running the computation on the
cleared repository changes nothing. -/
theorem compute_task_state_snooze_spec (off : Int) (repo : Repo) (task : Task)
    (nowu nowl : Int) (settings : AppSettings) (u : Int)
    (hs : (repo.get_snooze_state task.id).snoozed_until_utc = some u)
    (hle : u ≤ nowu) :
    (compute_task_state off repo task nowu nowl settings).1.snoozed = false ∧
    (((compute_task_state off repo task nowu nowl settings).2).get_snooze_state
        task.id).snoozed_until_utc = none ∧
    (compute_task_state off ((compute_task_state off repo task nowu nowl settings).2)
        task nowu nowl settings).2 =
      (compute_task_state off repo task nowu nowl settings).2 := by
  have hexp := snooze_eval_of_expired hs (not_lt.mpr hle)
  have hsnd := compute_task_state_snd off repo task nowu nowl settings
  have hcleared :
      (((compute_task_state off repo task nowu nowl settings).2).get_snooze_state
        task.id).snoozed_until_utc = none := by
    rw [hsnd, hexp]
    simp [Repo.set_snoozed_until_utc, Repo.get_snooze_state]
  refine ⟨?_, hcleared, ?_⟩
  · rw [compute_task_state_snoozed, hexp]
  · rw [compute_task_state_snd off _ task nowu nowl settings,
      snooze_eval_of_none nowu hcleared]

/-- Witness for C3 at a concrete expired snooze. -/
theorem compute_task_state_snooze_spec_witness :
    (compute_task_state 0 snoozedRepo onceTask 200 200 defaultSettings).1.snoozed = false ∧
    (((compute_task_state 0 snoozedRepo onceTask 200 200 defaultSettings).2).get_snooze_state
        onceTask.id).snoozed_until_utc = none := by
  have h := compute_task_state_snooze_spec 0 snoozedRepo onceTask 200 200 defaultSettings 100
    rfl (by decide)
  exact ⟨h.1, h.2.1⟩

/-- C10: on a local Saturday or Sunday, `is_in_workweek` is false, every
task's `can_remind_now` is false, and a scheduler tick at such an instant
fires nothing, whatever the task's active weekdays. -/
theorem weekend_never_reminds_spec (off : Int) (repo : Repo) (task : Task)
    (nowu nowl : Int) (settings : AppSettings) (last : Option Int)
    (hw : weekdayOf nowl = 5 ∨ weekdayOf nowl = 6) :
    is_in_workweek nowl = false ∧
    (compute_task_state off repo task nowu nowl settings).1.can_remind_now = false ∧
    (nowl = to_local off nowu → (tick_task off repo task settings nowu last).1 = false) := by
  have hww : is_in_workweek nowl = false := by
    rw [Bool.eq_false_iff]
    intro h
    have h5 := (is_in_workweek_iff nowl).mp h
    rcases hw with hw | hw <;> omega
  have hcr : (compute_task_state off repo task nowu nowl settings).1.can_remind_now = false := by
    rw [compute_task_state_can_remind_eq, hww]
    simp
  refine ⟨hww, hcr, ?_⟩
  intro hn
  rw [hn] at hcr
  simp [tick_task, hcr]

/-- Witness for C10 at Saturday 00:00 local of the epoch week. -/
theorem weekend_never_reminds_spec_witness :
    is_in_workweek 432000 = false ∧
    (compute_task_state 0 emptyRepo onceTask 432000 432000 defaultSettings).1.can_remind_now
      = false ∧
    (tick_task 0 emptyRepo onceTask defaultSettings 432000 none).1 = false := by
  have h := weekend_never_reminds_spec 0 emptyRepo onceTask 432000 432000 defaultSettings none
    (Or.inl (by decide))
  exact ⟨h.1, h.2.1, h.2.2 rfl⟩

/-- C4: `split_interval_by_workweek` equals the floor in whole minutes of
the length of the intersection of the local interval `[start, end)` with
the workweek window containing the start's local instant; hence it is 0
when `end <= start` or when the start lies on the weekend (an interval
wholly on a Saturday), and an interval wholly inside one window yields
exactly its duration in whole minutes. -/
theorem split_interval_by_workweek_spec (off s e : Int) :
    (split_interval_by_workweek off s e =
      max 0 (min (to_local off e) (workweek_window_for (to_local off s)).end_local -
        max (to_local off s) (workweek_window_for (to_local off s)).start_local) / 60) ∧
    (e ≤ s → split_interval_by_workweek off s e = 0) ∧
    (5 ≤ weekdayOf (to_local off s) → split_interval_by_workweek off s e = 0) ∧
    ((workweek_window_for (to_local off s)).start_local ≤ to_local off s →
      to_local off s ≤ to_local off e →
      to_local off e ≤ (workweek_window_for (to_local off s)).end_local →
      split_interval_by_workweek off s e = (to_local off e - to_local off s) / 60) := by
  simp only [split_interval_by_workweek, to_local]
  have hse : (workweek_window_for (s + off)).end_local =
      (workweek_window_for (s + off)).start_local + 5 * 86400 := rfl
  have hstart := window_start_le (s + off)
  have hwe : 5 ≤ weekdayOf (s + off) →
      (workweek_window_for (s + off)).end_local ≤ s + off := by
    intro h5
    have hmono : (mondayOf (s + off) + 5) * 86400 ≤ dayOf (s + off) * 86400 := by
      have hle : mondayOf (s + off) + 5 ≤ dayOf (s + off) := by
        have := dayOf_eq_monday_add_weekday (s + off)
        omega
      exact mul_le_mul_of_nonneg_right hle (by norm_num)
    have hd := dayOf_mul_le (s + off)
    have hend : (workweek_window_for (s + off)).end_local =
        (mondayOf (s + off) + 5) * 86400 := by
      unfold workweek_window_for
      ring
    omega
  refine ⟨by split <;> omega, fun h => by split <;> omega, fun h => ?_,
    fun h1 h2 h3 => by split <;> omega⟩
  have := hwe h
  split <;> omega

/-- Witness for C4: the spec's concrete cases — an interval from Friday
23:30 to Saturday 00:30 local yields 30 minutes; a wholly-Saturday
interval yields 0; a reversed interval yields 0; an interval wholly inside
one window yields its whole-minute duration (90 seconds give 1 minute). -/
theorem split_interval_by_workweek_spec_witness :
    split_interval_by_workweek 0 430200 433800 = 30 ∧
    split_interval_by_workweek 0 435600 439200 = 0 ∧
    split_interval_by_workweek 0 7200 3600 = 0 ∧
    split_interval_by_workweek 0 3600 3690 = 1 := by
  refine ⟨?_, ?_, ?_, ?_⟩
  · have h := (split_interval_by_workweek_spec 0 430200 433800).1
    rw [h]; decide
  · exact (split_interval_by_workweek_spec 0 435600 439200).2.2.1 (by decide)
  · exact (split_interval_by_workweek_spec 0 7200 3600).2.1 (by decide)
  · have h := (split_interval_by_workweek_spec 0 3600 3690).2.2.2 (by decide) (by decide)
      (by decide)
    rw [h]; decide

/-! ### C7: the quota-minutes accumulation -/

/-- The contribution of a single session at evaluation instant `nowu`,
following the spec's wording: manual sessions contribute their
manual-minutes, timed sessions the overlap minutes of `[start, end-or-now)`
computed by `split_interval_by_workweek`. -/
def session_contribution (off nowu : Int) (s : Session) : Int :=
  if 0 < s.manual_minutes then s.manual_minutes
  else split_interval_by_workweek off s.start_utc (s.end_utc.getD nowu)

/-- `done_minutes` as the spec words it: the sum of the contributions of
exactly those of the task's sessions whose own period key (from their
start, in local time) equals the current period key. -/
def spec_done_minutes (off : Int) (repo : Repo) (task_id nowu : Int) : Int :=
  ((repo.sessions.filter (fun s => decide (s.task_id = task_id ∧
      period_key_workweek (to_local off s.start_utc) =
        period_key_workweek (to_local off nowu)))).map
    (session_contribution off nowu)).sum

theorem session_step_eq (off nowu pk total : Int) (s : Session) :
    session_step off nowu pk total s =
      total + (if period_key_workweek (to_local off s.start_utc) = pk
        then session_contribution off nowu s else 0) := by
  unfold session_step session_contribution
  by_cases hm : 0 < s.manual_minutes <;>
    by_cases hp : period_key_workweek (to_local off s.start_utc) = pk <;>
    simp [hm, hp]

theorem foldl_session_step (off nowu pk : Int) :
    ∀ (l : List Session) (total : Int),
      l.foldl (session_step off nowu pk) total =
        total + ((l.filter (fun s =>
          decide (period_key_workweek (to_local off s.start_utc) = pk))).map
            (session_contribution off nowu)).sum
  | [], total => by simp
  | s :: rest, total => by
      rw [List.foldl_cons, session_step_eq, foldl_session_step off nowu pk rest]
      by_cases hp : period_key_workweek (to_local off s.start_utc) = pk <;>
        simp [hp, add_assoc]

/-- C7: the accumulated minutes for the current workweek equal the sum,
over exactly those of the task's sessions whose own period key equals the
current one, of manual minutes (manual entries) plus the workweek overlap
of `[start, end-or-now)` (timed sessions); a session whose start lies in a
different period contributes nothing, even a timed session still running
into the current period at evaluation time. -/
theorem weekly_minutes_for_current_workweek_spec (off : Int) (repo : Repo)
    (task_id nowu : Int) :
    (repo.weekly_minutes_for_current_workweek off task_id nowu =
      spec_done_minutes off repo task_id nowu) ∧
    (∀ s : Session,
      period_key_workweek (to_local off s.start_utc) ≠
        period_key_workweek (to_local off nowu) →
      Repo.weekly_minutes_for_current_workweek
          { repo with sessions := repo.sessions ++ [s] } off task_id nowu =
        repo.weekly_minutes_for_current_workweek off task_id nowu) := by
  constructor
  · unfold Repo.weekly_minutes_for_current_workweek spec_done_minutes
    simp only
    rw [foldl_session_step, List.filter_filter]
    have hfe : (repo.sessions.filter fun s =>
        decide (period_key_workweek (to_local off s.start_utc) =
          period_key_workweek (to_local off nowu)) && decide (s.task_id = task_id)) =
        (repo.sessions.filter fun s => decide (s.task_id = task_id ∧
          period_key_workweek (to_local off s.start_utc) =
            period_key_workweek (to_local off nowu))) := by
      apply List.filter_congr
      intro x _
      by_cases h1 : x.task_id = task_id <;>
        by_cases h2 : period_key_workweek (to_local off x.start_utc) =
          period_key_workweek (to_local off nowu) <;> simp [h1, h2]
    rw [hfe]
    simp
  · intro s hs
    unfold Repo.weekly_minutes_for_current_workweek
    simp only [List.filter_append, List.foldl_append]
    by_cases ht : s.task_id = task_id
    · simp only [List.filter_cons, List.filter_nil, ht, decide_eq_true_eq, if_pos,
        List.foldl_cons, List.foldl_nil, eq_self_iff_true, if_true, decide_True,
        List.foldl]
      rw [session_step_eq]
      simp [hs]
    · simp [ht]

/-- A timed session opened on Friday 23:30 of the epoch week and still
running (no end). -/
def oldOpenSession : Session :=
  { task_id := 3, start_utc := 430200, end_utc := none, manual_minutes := 0 }

/-- Witness for C7: evaluating in the second week, the repository's
minutes match the spec sum, and appending the still-open session started
in the first week changes nothing. -/
theorem weekly_minutes_for_current_workweek_spec_witness :
    sessionRepo.weekly_minutes_for_current_workweek 0 3 700000 =
      spec_done_minutes 0 sessionRepo 3 700000 ∧
    Repo.weekly_minutes_for_current_workweek
        { sessionRepo with sessions := sessionRepo.sessions ++ [oldOpenSession] } 0 3 700000 =
      sessionRepo.weekly_minutes_for_current_workweek 0 3 700000 := by
  have h := weekly_minutes_for_current_workweek_spec 0 sessionRepo 3 700000
  exact ⟨h.1, h.2 oldOpenSession (by decide)⟩

/-! ### C8: scheduler throttling -/

theorem tick_task_no_fire (off : Int) (repo : Repo) (task : Task)
    (settings : AppSettings) (t T : Int)
    (h : t - T < (max 1 settings.repeat_interval_minutes) * 60) :
    tick_task off repo task settings t (some T) = (false, some T,
      (compute_task_state off repo task t (to_local off t) settings).2) := by
  cases hc : (compute_task_state off repo task t (to_local off t) settings).1.can_remind_now <;>
    simp [tick_task, hc, should_throttle, h]

/-- C8: once a task fired at instant `T`, no tick strictly less than the
clamped repeat interval after `T` fires it again, whatever the repository
contents at those ticks (eligibility may toggle freely); and a tick at
least the clamped interval after `T` at which the task is eligible fires
it again and records the new instant. -/
theorem scheduler_throttle_spec (off : Int) (task : Task) (settings : AppSettings)
    (T : Int) :
    (∀ ticks : List (Int × Repo),
      (∀ p ∈ ticks, p.1 - T < (max 1 settings.repeat_interval_minutes) * 60) →
      run_ticks off task settings ticks (some T) = (some T, [])) ∧
    (∀ (repo : Repo) (t : Int),
      (max 1 settings.repeat_interval_minutes) * 60 ≤ t - T →
      (compute_task_state off repo task t (to_local off t) settings).1.can_remind_now = true →
      tick_task off repo task settings t (some T) = (true, some t,
        (compute_task_state off repo task t (to_local off t) settings).2)) := by
  constructor
  · intro ticks
    induction ticks with
    | nil => intro _; rfl
    | cons p rest ih =>
        intro hall
        obtain ⟨t, repo⟩ := p
        have hp := hall (t, repo) (List.mem_cons_self _ _)
        have hnf := tick_task_no_fire off repo task settings t T hp
        have htail := ih fun q hq => hall q (List.mem_cons_of_mem _ hq)
        simp [run_ticks, hnf, htail]
  · intro repo t h1 h2
    have hth : should_throttle (some T) t (max 1 settings.repeat_interval_minutes) = false := by
      simp [should_throttle]
      omega
    simp [tick_task, h2, hth]

/-- Witness for C8: repeat interval 5 minutes, fired at Monday 10:00; a
tick 3 minutes later does not re-fire, a tick 6 minutes later does. -/
theorem scheduler_throttle_spec_witness :
    run_ticks 0 onceTask defaultSettings [(36180, emptyRepo)] (some 36000) =
      (some 36000, []) ∧
    (tick_task 0 emptyRepo onceTask defaultSettings 36360 (some 36000)).1 = true := by
  have h := scheduler_throttle_spec 0 onceTask defaultSettings 36000
  constructor
  · apply h.1
    intro p hp
    simp only [List.mem_singleton] at hp
    rw [hp]
    decide
  · have hb := h.2 emptyRepo 36360 (by decide) (by decide)
    rw [hb]

/-! ### C9: at most one open timed session per task -/

/-- The session-mutating repository operations. -/
inductive RepoOp where
  | start (task_id nowu : Int)
  | stop (task_id nowu : Int)
  | manual (task_id nowu minutes : Int)
  | deleteWeek (off task_id nowu : Int)

/-- Dispatch of a repository operation. -/
def Repo.apply_op (repo : Repo) : RepoOp → Repo
  | RepoOp.start task_id nowu => repo.start_session task_id nowu
  | RepoOp.stop task_id nowu => repo.stop_session task_id nowu
  | RepoOp.manual task_id nowu minutes => repo.add_manual_minutes task_id nowu minutes
  | RepoOp.deleteWeek off task_id nowu =>
      repo.delete_sessions_for_current_workweek off task_id nowu

/-- The invariant: every task has at most one open timed session. -/
def at_most_one_open (repo : Repo) : Prop :=
  ∀ task_id : Int, (repo.sessions.filter (open_timed task_id)).length ≤ 1

theorem filter_and_length_le {α : Type} (p q : α → Bool) :
    ∀ l : List α, (l.filter (fun a => p a && q a)).length ≤ (l.filter p).length := by
  intro l
  induction l with
  | nil => simp
  | cons a l ih =>
      cases hp : p a <;> cases hq : q a <;>
        simp only [List.filter_cons, hp, hq, Bool.and_true, Bool.and_false,
          Bool.and_self, if_true, if_false, List.length_cons, Bool.false_eq_true,
          Bool.true_eq_false] <;>
        omega

theorem stop_first_filter_le (task_id nowu tid2 : Int) :
    ∀ l : List Session,
      ((stop_first task_id nowu l).filter (open_timed tid2)).length ≤
        (l.filter (open_timed tid2)).length := by
  intro l
  induction l with
  | nil => simp [stop_first]
  | cons s rest ih =>
      unfold stop_first
      by_cases ho : open_timed task_id s = true
      · rw [if_pos ho]
        have hclosed : open_timed tid2 { s with end_utc := some nowu } = false := by
          simp [open_timed]
        cases hp : open_timed tid2 s <;>
          simp only [List.filter_cons, hp, hclosed, if_true, if_false,
            List.length_cons, Bool.false_eq_true] <;>
          omega
      · rw [if_neg ho]
        cases hp : open_timed tid2 s <;>
          simp only [List.filter_cons, hp, if_true, if_false, List.length_cons,
            Bool.false_eq_true] <;>
          omega

theorem start_session_preserves (repo : Repo) (task_id nowu : Int)
    (h : at_most_one_open repo) :
    at_most_one_open (repo.start_session task_id nowu) := by
  intro tid2
  unfold Repo.start_session
  by_cases hr : repo.sessions.any (open_timed task_id) = true
  · rw [if_pos hr]
    exact h tid2
  · rw [if_neg hr]
    simp only [List.filter_append, List.length_append]
    by_cases htid : tid2 = task_id
    · subst htid
      have hnil : repo.sessions.filter (open_timed tid2) = [] := by
        rw [List.filter_eq_nil_iff]
        intro a ha hpa
        rw [Bool.not_eq_true, List.any_eq_false] at hr
        exact hr a ha hpa
      rw [hnil]
      simp [open_timed]
    · have hone : (List.filter (open_timed tid2)
          [{ task_id := task_id, start_utc := nowu, end_utc := none,
             manual_minutes := 0 : Session }]) = [] := by
        simp [open_timed]
        intro hcontra
        exact absurd hcontra.symm htid
      rw [hone]
      simpa using h tid2

theorem stop_session_preserves (repo : Repo) (task_id nowu : Int)
    (h : at_most_one_open repo) :
    at_most_one_open (repo.stop_session task_id nowu) := by
  intro tid2
  unfold Repo.stop_session
  exact le_trans (stop_first_filter_le task_id nowu tid2 repo.sessions) (h tid2)

theorem add_manual_preserves (repo : Repo) (task_id nowu minutes : Int)
    (h : at_most_one_open repo) :
    at_most_one_open (repo.add_manual_minutes task_id nowu minutes) := by
  intro tid2
  unfold Repo.add_manual_minutes
  simp only [List.filter_append, List.length_append]
  have hone : (List.filter (open_timed tid2)
      [{ task_id := task_id, start_utc := nowu, end_utc := some nowu,
         manual_minutes := minutes : Session }]) = [] := by
    simp [open_timed]
  rw [hone]
  simpa using h tid2

theorem delete_preserves (repo : Repo) (off task_id nowu : Int)
    (h : at_most_one_open repo) :
    at_most_one_open (repo.delete_sessions_for_current_workweek off task_id nowu) := by
  intro tid2
  unfold Repo.delete_sessions_for_current_workweek
  simp only
  rw [List.filter_filter]
  exact le_trans (filter_and_length_le (open_timed tid2) _ repo.sessions) (h tid2)

/-- C9: at most one timed session per task is ever open: `start_session`
is a no-op when an open timed session exists (so starting twice while one
is open leaves the session set unchanged), and the invariant "each task
has at most one open timed session" is preserved by every sequence of
session-mutating repository operations. -/
theorem start_session_invariant_spec :
    (∀ (repo : Repo) (task_id nowu : Int),
      repo.is_session_running task_id = true →
      repo.start_session task_id nowu = repo) ∧
    (∀ (repo : Repo) (task_id n1 n2 : Int),
      (repo.start_session task_id n1).start_session task_id n2 =
        repo.start_session task_id n1) ∧
    (∀ (repo : Repo) (ops : List RepoOp),
      at_most_one_open repo →
      at_most_one_open (ops.foldl Repo.apply_op repo)) := by
  have hstop : ∀ (repo : Repo) (task_id nowu : Int),
      repo.sessions.any (open_timed task_id) = true →
      repo.start_session task_id nowu = repo := by
    intro repo task_id nowu h
    unfold Repo.start_session
    rw [if_pos h]
  refine ⟨?_, ?_, ?_⟩
  · intro repo task_id nowu h
    exact hstop repo task_id nowu h
  · intro repo task_id n1 n2
    by_cases hr : repo.sessions.any (open_timed task_id) = true
    · rw [hstop repo task_id n1 hr, hstop repo task_id n2 hr]
    · have h1 : repo.start_session task_id n1 =
          { repo with sessions := repo.sessions ++
            [{ task_id := task_id, start_utc := n1, end_utc := none,
               manual_minutes := 0 }] } := by
        unfold Repo.start_session
        rw [if_neg hr]
      apply hstop
      rw [h1]
      simp [open_timed]
  · intro repo ops
    induction ops generalizing repo with
    | nil => intro h; exact h
    | cons op rest ih =>
        intro h
        rw [List.foldl_cons]
        apply ih
        cases op with
        | start task_id nowu => exact start_session_preserves repo task_id nowu h
        | stop task_id nowu => exact stop_session_preserves repo task_id nowu h
        | manual task_id nowu minutes =>
            exact add_manual_preserves repo task_id nowu minutes h
        | deleteWeek off task_id nowu => exact delete_preserves repo off task_id nowu h

/-- Witness for C9: starting twice on the empty repository equals starting
once, and after a concrete start/stop/start sequence task 3 still has at
most one open timed session. -/
theorem start_session_invariant_spec_witness :
    (emptyRepo.start_session 3 100).start_session 3 200 =
      emptyRepo.start_session 3 100 ∧
    ((([RepoOp.start 3 100, RepoOp.start 3 200, RepoOp.stop 3 300,
        RepoOp.start 3 400]).foldl Repo.apply_op emptyRepo).sessions.filter
      (open_timed 3)).length ≤ 1 := by
  refine ⟨start_session_invariant_spec.2.1 emptyRepo 3 100 200, ?_⟩
  exact start_session_invariant_spec.2.2 emptyRepo
    [RepoOp.start 3 100, RepoOp.start 3 200, RepoOp.stop 3 300, RepoOp.start 3 400]
    (fun tid2 => by simp [emptyRepo]) 3

/-- An enabled quota task whose weekly goal is 0 minutes. -/
def goalZeroTask : Task :=
  { id := 4, title := "zero", task_type := TaskType.weekly_time_quota, enabled := true
    schedule := { active_weekdays := [0, 1, 2, 3, 4] }, weekly_goal_minutes := some 0 }

/-- Counterexample to C2 as stated: for a quota task with weekly goal 0,
no completion record and 0 accumulated minutes, the accumulated minutes
are at least the goal, yet `done` is false — the code additionally
requires the goal to be positive. -/
theorem compute_task_state_done_counterexample :
    ¬ ((compute_task_state 0 emptyRepo goalZeroTask 36000 36000 defaultSettings).1.done
        = true ↔
      (emptyRepo.is_completed_for_current_period 0 goalZeroTask.id 36000 = true ∨
        goalZeroTask.weekly_goal_minutes.getD 0 ≤
          emptyRepo.weekly_minutes_for_current_workweek 0 goalZeroTask.id 36000)) := by
  decide
